import Mathlib

/-!
Shallow embedding of the `nextferry` backend (`src/backend/next_sailings.py`,
`src/backend/utils.py`, `src/backend/serializers.py`) and proofs about it.

Modelling conventions:
* Instants (Python `datetime`) are integers (epoch minutes); a `datetime`
  field that may be `None` in Python is an `Option Int`.
* Delays (Python `timedelta`) are signed integers (minutes).
* Python `dict`s are association lists with first-match lookup and
  in-place-replace insertion (`dictGet` / `dictSet`), which reproduces
  the lookup/update semantics of a Python dict.
* Python code that can raise (comparison with `None`, indexing an empty
  list, `re.match` on a non-string) is embedded in `Except String`.
-/

deriving instance DecidableEq for Except

set_option synthInstance.maxSize 512

namespace NextFerry

/-- Python dict lookup `d.get(k)`: the value stored at `k`, if present. -/
def dictGet {α β : Type} [DecidableEq α] : List (α × β) → α → Option β
  | [], _ => none
  | (k', v) :: rest, k => if k' = k then some v else dictGet rest k

/-- Python dict update `d[k] = v`: replaces the value at `k` in place, or
appends a new binding if `k` is absent. -/
def dictSet {α β : Type} [DecidableEq α] : List (α × β) → α → β → List (α × β)
  | [], k, v => [(k, v)]
  | (k', v') :: rest, k, v =>
      if k' = k then (k', v) :: rest else (k', v') :: dictSet rest k v

/-- Vessel snapshot (`serializers.Vessel`), restricted to the fields the
next-sailings pipeline reads.  `left_dock`, `scheduled_departure` and
`vessel_position_num` are nullable in the data model; `delay` is the field
attached by the resolver in `next_sailings.py`. -/
structure Vessel where
  vessel_name : String
  at_dock : Bool
  left_dock : Option Int
  scheduled_departure : Option Int
  delay : Option Int
  route_name : List String
  vessel_position_num : Option Int
  deriving DecidableEq, Repr

/-- The global delay cache `CACHED_DELAYS`: route abbreviation ↦
(vessel position number ↦ delay). -/
abbrev DelayCache := List (String × List (Option Int × Int))

/-- One iteration of the loop in `update_cached_delay`: store `dl` for the
given position number under `route`, creating the inner dict when the route
key is new. -/
def cacheWrite (pos : Option Int) (dl : Int) (c : DelayCache) (route : String) :
    DelayCache :=
  dictSet c route (dictSet ((dictGet c route).getD []) pos dl)

/-- The `update_cached_delay` function of `next_sailings.py`: for each route
abbreviation of the vessel, record the delay under the vessel's position
number (creating the inner dict when the route key is new). -/
def update_cached_delay (cache : DelayCache) (v : Vessel) (delay : Int) :
    DelayCache :=
  v.route_name.foldl (cacheWrite v.vessel_position_num delay) cache

/-- The `get_cached_delay` function of `next_sailings.py`.  It indexes
`vessel.route_name[0]`, which raises `IndexError` on an empty route list;
when the route key is absent from the cache it falls off the function body
and returns `None`. -/
def get_cached_delay (cache : DelayCache) (v : Vessel) :
    Except String (Option Int) :=
  match v.route_name with
  | [] => .error "IndexError: list index out of range"
  | route :: _ =>
      match dictGet cache route with
      | some inner => .ok (dictGet inner v.vessel_position_num)
      | none => .ok none

/-- Loop body of `get_vessels_with_delays`: computes
`v.left_dock - v.scheduled_departure` when both instants are present, else
`None`; the result is then tested for Python truthiness (`if vessel_delay:`),
so a delay of exactly zero is falsy and takes the cached-delay branch just
like an absent observation.  Returns the vessel with its `delay` field set
together with the cache after the iteration. -/
def resolve_vessel_delay (cache : DelayCache) (v : Vessel) :
    Except String (Vessel × DelayCache) :=
  let vessel_delay : Option Int :=
    match v.scheduled_departure, v.left_dock with
    | some sd, some ld => some (ld - sd)
    | _, _ => none
  match vessel_delay with
  | some d =>
      if d ≠ 0 then
        .ok ({ v with delay := some d }, update_cached_delay cache v d)
      else do
        let cd ← get_cached_delay cache v
        .ok ({ v with delay := cd }, cache)
  | none => do
      let cd ← get_cached_delay cache v
      .ok ({ v with delay := cd }, cache)

/-- The `get_vessels_with_delays` function of `next_sailings.py`, with the
fetched vessel list and the mutable global cache made explicit: resolves
each vessel's delay in order, threading the cache. -/
def get_vessels_with_delays (cache : DelayCache) :
    List Vessel → Except String (List Vessel × DelayCache)
  | [] => .ok ([], cache)
  | v :: rest => do
      let (v', cache') ← resolve_vessel_delay cache v
      let (vs, cacheF) ← get_vessels_with_delays cache' rest
      .ok (v' :: vs, cacheF)

/-- Lookup of a cached delay for a given route abbreviation and position
number, as two nested dict lookups. -/
def cachedLookup (cache : DelayCache) (route : String) (pos : Option Int) :
    Option Int :=
  match dictGet cache route with
  | some inner => dictGet inner pos
  | none => none

/-- One scheduled departure of `ScheduleToday` (`serializers.RawDeparture`).
`DepartingTime` is nullable in the data model. -/
structure RawDeparture where
  scheduled_departure : Option Int
  vessel_name : String
  vessel_position_num : Int
  deriving DecidableEq, Repr

/-- One terminal combo of `ScheduleToday`
(`serializers.RawDirectionalSchedule`). -/
structure RawDirectionalSchedule where
  departing_terminal_id : Int
  departing_terminal_name : String
  arriving_terminal_id : Int
  arriving_terminal_name : String
  times : List RawDeparture
  deriving DecidableEq, Repr

/-- A sailing tagged with its direction (`serializers.DirectionalSailing`).
`delay_in_minutes` defaults to `None` in the pydantic model and is the
field the display layer reads for the delay annotation. -/
structure DirectionalSailing where
  scheduled_departure : Option Int
  delay_in_minutes : Option Int
  vessel_name : String
  vessel_position_num : Int
  departing_terminal_id : Int
  arriving_terminal_id : Int
  departing_terminal_name : String
  arriving_terminal_name : String
  deriving DecidableEq, Repr

/-- A sailing without direction fields (`serializers.RouteSailing`). -/
structure RouteSailing where
  scheduled_departure : Option Int
  delay_in_minutes : Option Int
  vessel_name : String
  vessel_position_num : Int
  deriving DecidableEq, Repr

/-- The `DirectionalSailing.to_route_sailing` method: keeps the four
`RouteSailing` fields. -/
def DirectionalSailing.to_route_sailing (s : DirectionalSailing) :
    RouteSailing :=
  { scheduled_departure := s.scheduled_departure
    delay_in_minutes := s.delay_in_minutes
    vessel_name := s.vessel_name
    vessel_position_num := s.vessel_position_num }

/-- One direction's result record (`serializers.DirectionalSchedule`). -/
structure DirectionalSchedule where
  departing_terminal_id : Int
  departing_terminal_name : String
  arriving_terminal_id : Int
  arriving_terminal_name : String
  times : List RouteSailing
  deriving DecidableEq, Repr

/-- The `DirectionalSailing` built in `get_route_schedule_by_boat` from a
terminal combo and one of its departures; `delay_in_minutes` is not passed,
so it takes its pydantic default `None`. -/
def mkDirectionalSailing (ds : RawDirectionalSchedule) (t : RawDeparture) :
    DirectionalSailing :=
  { departing_terminal_name := ds.departing_terminal_name
    arriving_terminal_name := ds.arriving_terminal_name
    departing_terminal_id := ds.departing_terminal_id
    arriving_terminal_id := ds.arriving_terminal_id
    scheduled_departure := t.scheduled_departure
    vessel_name := t.vessel_name
    vessel_position_num := t.vessel_position_num
    delay_in_minutes := none }

/-- Append `x` to the group of key `k`, creating the group at the end when
`k` is new: the behaviour of `defaultdict(list)[k].append(x)`, including
the insertion order of keys. -/
def appendGroup {κ α : Type} [DecidableEq κ] :
    List (κ × List α) → κ → α → List (κ × List α)
  | [], k, x => [(k, [x])]
  | (k', xs) :: rest, k, x =>
      if k' = k then (k', xs ++ [x]) :: rest
      else (k', xs) :: appendGroup rest k x

/-- Sort key used by both sorting sites: `lambda x: x.scheduled_departure`.
The default `0` is never reached on a successfully sorted list, because
sorting a list of two or more elements with a `None` key raises. -/
def RouteSailing.sortKey (s : RouteSailing) : Int :=
  s.scheduled_departure.getD 0

/-- Sort key for `DirectionalSailing` values, see `RouteSailing.sortKey`. -/
def DirectionalSailing.sortKey (s : DirectionalSailing) : Int :=
  s.scheduled_departure.getD 0

/-- Comparison used to sort `RouteSailing` lists by scheduled departure. -/
def rsLe (a b : RouteSailing) : Prop := a.sortKey ≤ b.sortKey

/-- Comparison used to sort `DirectionalSailing` lists by scheduled
departure. -/
def dsLe (a b : DirectionalSailing) : Prop := a.sortKey ≤ b.sortKey

instance : DecidableRel rsLe := fun a b =>
  inferInstanceAs (Decidable (a.sortKey ≤ b.sortKey))

instance : DecidableRel dsLe := fun a b =>
  inferInstanceAs (Decidable (a.sortKey ≤ b.sortKey))

instance : IsTotal RouteSailing rsLe := ⟨fun a b => le_total a.sortKey b.sortKey⟩

instance : IsTrans RouteSailing rsLe := ⟨fun _ _ _ h h' => le_trans h h'⟩

instance : IsTotal DirectionalSailing dsLe := ⟨fun a b => le_total a.sortKey b.sortKey⟩

instance : IsTrans DirectionalSailing dsLe := ⟨fun _ _ _ h h' => le_trans h h'⟩

/-- Python `sorted(l, key=lambda x: x.scheduled_departure)` on datetimes:
a list of at most one element is returned as is (no comparison is made);
a longer list is sorted when every key is an instant, and raises a
`TypeError` when any key is `None` (every element takes part in at least
one comparison, and comparing `None` with anything raises). -/
def sortSailingsE (l : List DirectionalSailing) :
    Except String (List DirectionalSailing) :=
  if l.length ≤ 1 then .ok l
  else if l.all (fun s => s.scheduled_departure.isSome) then
    .ok (l.insertionSort dsLe)
  else .error "TypeError: not supported between instances of NoneType and datetime"

/-- Same as `sortSailingsE`, for `RouteSailing` lists. -/
def sortTimesE (l : List RouteSailing) : Except String (List RouteSailing) :=
  if l.length ≤ 1 then .ok l
  else if l.all (fun s => s.scheduled_departure.isSome) then
    .ok (l.insertionSort rsLe)
  else .error "TypeError: not supported between instances of NoneType and datetime"

/-- Effectful map over a list, propagating the first error: the semantics
of a Python loop whose body can raise. -/
def mapE {α β : Type} (f : α → Except String β) :
    List α → Except String (List β)
  | [] => .ok []
  | x :: xs => do
      let y ← f x
      let ys ← mapE f xs
      .ok (y :: ys)

/-- Grouping phase of `get_route_schedule_by_boat`: the
`defaultdict(list)` keyed by vessel position number, filled by the two
nested loops over terminal combos and their departures. -/
def scheduleGroups (schedules : List RawDirectionalSchedule) :
    List (Int × List DirectionalSailing) :=
  schedules.foldl
    (fun g ds =>
      ds.times.foldl
        (fun g t => appendGroup g t.vessel_position_num (mkDirectionalSailing ds t))
        g)
    []

/-- The `get_route_schedule_by_boat` function of `next_sailings.py`: groups
every departure of every terminal combo by vessel position number (as a
`DirectionalSailing`), then sorts each group by scheduled departure. -/
def get_route_schedule_by_boat (schedules : List RawDirectionalSchedule) :
    Except String (List (Int × List DirectionalSailing)) :=
  mapE (fun e => do
    let sorted ← sortSailingsE e.2
    .ok (e.1, sorted)) (scheduleGroups schedules)

/-- The `get_route_vessels` function of `next_sailings.py`: vessels whose
route list contains the configured route abbreviation. -/
def get_route_vessels (vessel_positions : List Vessel) (route_name : String) :
    List Vessel :=
  vessel_positions.filter (fun v => route_name ∈ v.route_name)

/-- Lookup in `route_vessels_by_position`: the dict comprehension keeps the
last vessel for each position number, so the lookup finds the last vessel
in the list whose (nullable) position number equals `n`. -/
def lookupVessel (route_vessels : List Vessel) (n : Int) : Option Vessel :=
  route_vessels.reverse.find? (fun v => decide (v.vessel_position_num = some n))

/-- Python comparison `a > b` on two nullable datetimes: raises a
`TypeError` when either side is `None`. -/
def gtOptE (a b : Option Int) : Except String Bool :=
  match a, b with
  | some x, some y => .ok (decide (y < x))
  | _, _ => .error "TypeError: not supported between instances of NoneType and datetime"

/-- Python comparison `a >= b` on two nullable datetimes: raises a
`TypeError` when either side is `None`. -/
def geOptE (a b : Option Int) : Except String Bool :=
  match a, b with
  | some x, some y => .ok (decide (y ≤ x))
  | _, _ => .error "TypeError: not supported between instances of NoneType and datetime"

/-- Python list comprehension `[x for x in l if p(x)]` with a condition
that can raise: the first raising element aborts the whole comprehension. -/
def filterE {α : Type} (p : α → Except String Bool) :
    List α → Except String (List α)
  | [] => .ok []
  | x :: xs => do
      let b ← p x
      let rest ← filterE p xs
      .ok (if b then x :: rest else rest)

/-- Loop body of `get_next_sailings_by_boat` for one vessel position
number: no live vessel for the slot keeps the departures after `now`;
a vessel at dock keeps the departures at or after its scheduled departure;
a vessel underway keeps the departures strictly after it. -/
def next_sailings_for_position (route_vessels : List Vessel) (now : Int)
    (n : Int) (sailings : List DirectionalSailing) :
    Except String (List DirectionalSailing) :=
  match lookupVessel route_vessels n with
  | none =>
      filterE (fun s => gtOptE s.scheduled_departure (some now)) sailings
  | some cv =>
      if cv.at_dock then
        filterE (fun s => geOptE s.scheduled_departure cv.scheduled_departure) sailings
      else
        filterE (fun s => gtOptE s.scheduled_departure cv.scheduled_departure) sailings

/-- The `get_next_sailings_by_boat` function of `next_sailings.py`:
restricts each slot's schedule to the upcoming departures, per
`next_sailings_for_position`. -/
def get_next_sailings_by_boat
    (schedule_by_boat : List (Int × List DirectionalSailing))
    (route_vessels : List Vessel) (now : Int) :
    Except String (List (Int × List DirectionalSailing)) :=
  match schedule_by_boat with
  | [] => .ok []
  | (n, sailings) :: rest => do
      let ns ← next_sailings_for_position route_vessels now n sailings
      let restRes ← get_next_sailings_by_boat rest route_vessels now
      .ok ((n, ns) :: restRes)

/-- Direction key used to group sailings in `get_directional_schedules`. -/
def dirKey (s : DirectionalSailing) : Int × String × Int × String :=
  (s.departing_terminal_id, s.departing_terminal_name,
   s.arriving_terminal_id, s.arriving_terminal_name)

/-- Grouping phase of `get_directional_schedules`: flattens all sailings
of all vessel slots and groups them by direction key, in insertion
order. -/
def directionGroups
    (next_sailings_by_boat : List (Int × List DirectionalSailing)) :
    List ((Int × String × Int × String) × List DirectionalSailing) :=
  next_sailings_by_boat.foldl
    (fun g e => e.2.foldl (fun g s => appendGroup g (dirKey s) s) g)
    []

/-- The `get_directional_schedules` function of `next_sailings.py`:
flattens the per-slot upcoming sailings, groups them by direction, and
emits one record per direction present, its times converted to
`RouteSailing` and sorted by scheduled departure. -/
def get_directional_schedules
    (next_sailings_by_boat : List (Int × List DirectionalSailing)) :
    Except String (List DirectionalSchedule) :=
  mapE (fun e => do
    let sorted ← sortTimesE (e.2.map DirectionalSailing.to_route_sailing)
    .ok ({ departing_terminal_id := e.1.1
           departing_terminal_name := e.1.2.1
           arriving_terminal_id := e.1.2.2.1
           arriving_terminal_name := e.1.2.2.2
           times := sorted } : DirectionalSchedule))
    (directionGroups next_sailings_by_boat)

/-- The `get_next_sailings_for_route` function of `next_sailings.py`, with
the schedule fetched from the WSDOT client and the wall clock made
explicit. -/
def get_next_sailings_for_route (route_schedule : List RawDirectionalSchedule)
    (vessel_positions : List Vessel) (route_name : String) (now : Int) :
    Except String (List DirectionalSchedule) := do
  let route_vessels := get_route_vessels vessel_positions route_name
  let schedule_by_boat ← get_route_schedule_by_boat route_schedule
  let nsbb ← get_next_sailings_by_boat schedule_by_boat route_vessels now
  get_directional_schedules nsbb

/-- Value domain of the `parse_ms_date` argument in `utils.py`: the raw
JSON value handed to a pydantic `mode="before"` validator is `None`, a
string, or an already-structured value.  An already-structured datetime is
represented by its epoch instant in milliseconds; the function's
`astimezone` conversion to the fixed reference zone preserves the instant,
so the returned datetime is likewise represented by its epoch
milliseconds. -/
inductive PyVal where
  | vnull
  | vstr (s : String)
  | vdat (millis : Int)
  deriving DecidableEq, Repr

/-- Strip an expected character sequence from the front of a list:
`dropStart pat cs` is the remainder of `cs` after `pat`, or `none` when
`pat` is not an initial segment. -/
def dropStart : List Char → List Char → Option (List Char)
  | [], cs => some cs
  | _ :: _, [] => none
  | p :: ps, c :: cs => if p = c then dropStart ps cs else none

/-- Longest initial run of decimal digits and the remainder: the greedy
behaviour of the regex group `(\d+)`. -/
def spanDigits : List Char → List Char × List Char
  | [] => ([], [])
  | c :: rest =>
      if c.isDigit then
        let p := spanDigits rest
        (c :: p.1, p.2)
      else ([], c :: rest)

/-- Numeric value of a run of decimal digits, as `int(...)` reads it. -/
def digitsVal (cs : List Char) : Nat :=
  cs.foldl (fun a c => 10 * a + (c.toNat - 48)) 0

/-- What may follow the digit run for the regex to match: either directly
the closing `)/`, or a sign and exactly four digits and then `)/`.  When a
sign is present but not followed by four digits and `)/`, the optional
group cannot match and the `)` of the pattern cannot match the sign, so
the whole regex fails (`re.match` anchors at the start only, so trailing
text is allowed). -/
def suffixOk : List Char → Bool
  | ')' :: '/' :: _ => true
  | '+' :: c1 :: c2 :: c3 :: c4 :: ')' :: '/' :: _ =>
      c1.isDigit && c2.isDigit && c3.isDigit && c4.isDigit
  | '-' :: c1 :: c2 :: c3 :: c4 :: ')' :: '/' :: _ =>
      c1.isDigit && c2.isDigit && c3.isDigit && c4.isDigit
  | _ => false

/-- The regex match `re.match(r"/Date\((\d+)([-+]\d{4})?\)/", s)` of
`parse_ms_date`, returning the digits of group 1 as a number when the
pattern matches at the start of `s`. -/
def msDateMatch (s : String) : Option Nat :=
  match dropStart "/Date(".data s.data with
  | none => none
  | some r1 =>
      let p := spanDigits r1
      if p.1 = [] then none
      else if suffixOk p.2 then some (digitsVal p.1) else none

/-- The `parse_ms_date` function of `utils.py`.  `None` is returned as is;
a string is matched against the epoch-offset pattern and returns the
corresponding instant on a match (the millisecond count is UTC epoch
time; conversion to the reference zone preserves the instant) and the
string unchanged otherwise; any other value reaches
`re.match(pattern, value)`, which raises `TypeError` for non-string
arguments. -/
def parse_ms_date : PyVal → Except String PyVal
  | .vnull => .ok .vnull
  | .vstr s =>
      match msDateMatch s with
      | some millis => .ok (.vdat (millis : Int))
      | none => .ok (.vstr s)
  | .vdat _ => .error "TypeError: expected string or bytes-like object"

/-! ### Dictionary and cache lemmas -/

theorem dictGet_dictSet_self {α β : Type} [DecidableEq α]
    (d : List (α × β)) (k : α) (v : β) :
    dictGet (dictSet d k v) k = some v := by
  induction d with
  | nil => simp [dictGet, dictSet]
  | cons hd tl ih =>
      obtain ⟨k', v'⟩ := hd
      by_cases h : k' = k
      · simp [dictSet, dictGet, h]
      · simp [dictSet, dictGet, h, ih]

theorem dictGet_dictSet_other {α β : Type} [DecidableEq α]
    (d : List (α × β)) (k k' : α) (v : β) (h : k ≠ k') :
    dictGet (dictSet d k v) k' = dictGet d k' := by
  induction d with
  | nil => simp [dictGet, dictSet, h]
  | cons hd tl ih =>
      obtain ⟨k0, v0⟩ := hd
      by_cases h0 : k0 = k
      · subst h0
        simp [dictSet, dictGet, h]
      · simp [dictSet, dictGet, h0, ih]

theorem cachedLookup_cacheWrite_self (c : DelayCache) (pos : Option Int)
    (dl : Int) (route : String) :
    cachedLookup (cacheWrite pos dl c route) route pos = some dl := by
  simp [cachedLookup, cacheWrite, dictGet_dictSet_self]

theorem cachedLookup_cacheWrite_preserve (c : DelayCache) (pos : Option Int)
    (dl : Int) (r0 route : String) (h : cachedLookup c r0 pos = some dl) :
    cachedLookup (cacheWrite pos dl c route) r0 pos = some dl := by
  by_cases hr : route = r0
  · subst hr
    exact cachedLookup_cacheWrite_self c pos dl route
  · unfold cachedLookup cacheWrite at *
    rw [dictGet_dictSet_other _ _ _ _ hr]
    exact h

theorem cachedLookup_fold_preserve (l : List String) (c : DelayCache)
    (pos : Option Int) (dl : Int) (r : String)
    (h : cachedLookup c r pos = some dl) :
    cachedLookup (l.foldl (cacheWrite pos dl) c) r pos = some dl := by
  induction l generalizing c with
  | nil => exact h
  | cons a tl ih =>
      exact ih _ (cachedLookup_cacheWrite_preserve c pos dl r a h)

theorem cachedLookup_fold_mem (l : List String) (c : DelayCache)
    (pos : Option Int) (dl : Int) (r : String) (h : r ∈ l) :
    cachedLookup (l.foldl (cacheWrite pos dl) c) r pos = some dl := by
  induction l generalizing c with
  | nil => cases h
  | cons a tl ih =>
      rcases List.mem_cons.mp h with rfl | h'
      · exact cachedLookup_fold_preserve tl _ pos dl r
          (cachedLookup_cacheWrite_self c pos dl r)
      · exact ih _ h'

theorem update_cached_delay_lookup (cache : DelayCache) (v : Vessel)
    (dl : Int) (r : String) (h : r ∈ v.route_name) :
    cachedLookup (update_cached_delay cache v dl) r v.vessel_position_num =
      some dl :=
  cachedLookup_fold_mem v.route_name cache v.vessel_position_num dl r h

theorem get_cached_delay_cons (cache : DelayCache) (v : Vessel) (r : String)
    (rs : List String) (hroutes : v.route_name = r :: rs) :
    get_cached_delay cache v = .ok (cachedLookup cache r v.vessel_position_num) := by
  unfold get_cached_delay
  rw [hroutes]
  cases h : dictGet cache r <;> simp [cachedLookup, h]

/-! ### Delay resolution: claims C2, C3, C10 -/

/-- C2 (amended): for every vessel snapshot in which both the left-dock and
scheduled-departure instants are present and differ, the resolver sets the
snapshot's delay to exactly left-dock minus scheduled-departure (signed)
and records that value into the cache under every route abbreviation in the
vessel's route list, keyed by its vessel-position-number.  (The original
claim also covered a difference of exactly zero; see the counterexample.) -/
theorem c2_nonzero_delay_observed (cache : DelayCache) (v : Vessel)
    (sd ld : Int) (hsd : v.scheduled_departure = some sd)
    (hld : v.left_dock = some ld) (hne : ld - sd ≠ 0) :
    resolve_vessel_delay cache v =
      .ok ({ v with delay := some (ld - sd) },
        update_cached_delay cache v (ld - sd))
    ∧ ∀ r ∈ v.route_name,
        cachedLookup (update_cached_delay cache v (ld - sd)) r
          v.vessel_position_num = some (ld - sd) := by
  refine ⟨?_, fun r hr => update_cached_delay_lookup cache v (ld - sd) r hr⟩
  unfold resolve_vessel_delay
  rw [hsd, hld]
  simp [hne]

/-- Vessel snapshot that departed exactly on time: both instants present
and equal (a zero delay). -/
def zeroDelayVessel : Vessel :=
  { vessel_name := "Wenatchee"
    at_dock := false
    left_dock := some 540
    scheduled_departure := some 540
    delay := none
    route_name := ["sea-bi"]
    vessel_position_num := some 1 }

/-- Cache holding a stale delay of five minutes for the slot of
`zeroDelayVessel`. -/
def staleCache : DelayCache := [("sea-bi", [(some 1, 5)])]

/-- C2 counterexample: for a vessel with both instants present and equal,
the claim requires delay `left_dock - scheduled_departure = 0` and a cache
record of that value, but the resolver tests the observed delay for Python
truthiness, so a zero delay falls into the cached-delay branch: the
resolved delay is the stale cached value (five minutes, not zero) and the
cache is left unchanged. -/
theorem c2_zero_delay_cex :
    resolve_vessel_delay staleCache zeroDelayVessel =
      .ok ({ zeroDelayVessel with delay := some 5 }, staleCache)
    ∧ zeroDelayVessel.left_dock = some 540
    ∧ zeroDelayVessel.scheduled_departure = some 540
    ∧ ¬ (resolve_vessel_delay staleCache zeroDelayVessel =
          .ok ({ zeroDelayVessel with delay := some ((540 : Int) - 540) },
            update_cached_delay staleCache zeroDelayVessel ((540 : Int) - 540))) := by
  exact ⟨by decide, rfl, rfl, by decide⟩

/-- C2 witness: a vessel that left three minutes late, over two routes. -/
def lateVessel : Vessel :=
  { vessel_name := "Tacoma"
    at_dock := false
    left_dock := some 543
    scheduled_departure := some 540
    delay := none
    route_name := ["sea-bi", "sea-br"]
    vessel_position_num := some 2 }

/-- Witness for `c2_nonzero_delay_observed` at `lateVessel` over the empty
cache. -/
theorem c2_nonzero_delay_observed_witness :
    resolve_vessel_delay [] lateVessel =
      .ok ({ lateVessel with delay := some 3 },
        update_cached_delay [] lateVessel 3)
    ∧ cachedLookup (update_cached_delay [] lateVessel 3) "sea-br" (some 2) =
        some 3 := by
  have h := c2_nonzero_delay_observed [] lateVessel 540 543 rfl rfl (by decide)
  refine ⟨?_, ?_⟩
  · have := h.1
    norm_num at this ⊢
    exact this
  · have := h.2 "sea-br" (by simp [lateVessel])
    norm_num at this ⊢
    exact this

/-- C3: for every vessel snapshot missing the left-dock instant or the
scheduled-departure instant, the resolver sets the snapshot's delay to the
cached value under (first route abbreviation, vessel-position-number) — or
leaves it absent when nothing was cached there — and does not modify the
cache. -/
theorem c3_missing_instant_uses_cache (cache : DelayCache) (v : Vessel)
    (r : String) (rs : List String)
    (hmiss : v.left_dock = none ∨ v.scheduled_departure = none)
    (hroutes : v.route_name = r :: rs) :
    resolve_vessel_delay cache v =
      .ok ({ v with delay := cachedLookup cache r v.vessel_position_num },
        cache) := by
  have hcd := get_cached_delay_cons cache v r rs hroutes
  unfold resolve_vessel_delay
  rcases hmiss with h | h
  · cases hsd : v.scheduled_departure <;> simp [h, hsd, hcd] <;> rfl
  · cases hld : v.left_dock <;> simp [h, hld, hcd] <;> rfl

/-- Vessel snapshot still at the dock: no left-dock instant yet. -/
def atDockVessel : Vessel :=
  { vessel_name := "Wenatchee"
    at_dock := true
    left_dock := none
    scheduled_departure := some 540
    delay := none
    route_name := ["sea-bi"]
    vessel_position_num := some 1 }

/-- Witness for `c3_missing_instant_uses_cache` at `atDockVessel` over
`staleCache`. -/
theorem c3_missing_instant_uses_cache_witness :
    resolve_vessel_delay staleCache atDockVessel =
      .ok ({ atDockVessel with delay := some 5 }, staleCache) := by
  have h := c3_missing_instant_uses_cache staleCache atDockVessel "sea-bi" []
    (Or.inl rfl) rfl
  simpa using h

/-- C10: for a vessel snapshot whose route-abbreviation list is empty, the
resolver raises (the cache lookup indexes the first element of the empty
list) whenever there is no fresh nonzero delay observation, while a fresh
nonzero observation is accepted but recorded nowhere: the cache write loop
over the empty route list leaves the cache unchanged. -/
theorem c10_empty_route_list (cache : DelayCache) (v : Vessel)
    (hroutes : v.route_name = []) :
    ((v.left_dock = none ∨ v.scheduled_departure = none) →
        resolve_vessel_delay cache v =
          .error "IndexError: list index out of range")
    ∧ (∀ sd ld : Int, v.scheduled_departure = some sd →
        v.left_dock = some ld → ld - sd ≠ 0 →
        resolve_vessel_delay cache v =
          .ok ({ v with delay := some (ld - sd) }, cache)) := by
  constructor
  · intro hmiss
    have hge : get_cached_delay cache v = .error "IndexError: list index out of range" := by
      unfold get_cached_delay
      rw [hroutes]
    unfold resolve_vessel_delay
    rcases hmiss with h | h
    · cases hsd : v.scheduled_departure <;> simp [h, hsd, hge] <;> rfl
    · cases hld : v.left_dock <;> simp [h, hld, hge] <;> rfl
  · intro sd ld hsd hld hne
    unfold resolve_vessel_delay
    rw [hsd, hld]
    simp [hne, update_cached_delay, hroutes]

/-- Vessel with an empty route list and no left-dock instant. -/
def routelessIdle : Vessel :=
  { vessel_name := "Chimacum"
    at_dock := true
    left_dock := none
    scheduled_departure := some 540
    delay := none
    route_name := []
    vessel_position_num := some 1 }

/-- Vessel with an empty route list and a fresh ten-minute observation. -/
def routelessLate : Vessel :=
  { vessel_name := "Chimacum"
    at_dock := false
    left_dock := some 550
    scheduled_departure := some 540
    delay := none
    route_name := []
    vessel_position_num := some 1 }

/-- Witness for `c10_empty_route_list` at `routelessIdle` and
`routelessLate`. -/
theorem c10_empty_route_list_witness :
    resolve_vessel_delay [] routelessIdle =
      .error "IndexError: list index out of range"
    ∧ resolve_vessel_delay [] routelessLate =
        .ok ({ routelessLate with delay := some 10 }, []) := by
  refine ⟨(c10_empty_route_list [] routelessIdle rfl).1 (Or.inl rfl), ?_⟩
  have h := (c10_empty_route_list [] routelessLate rfl).2 540 550 rfl rfl (by decide)
  simpa using h

/-! ### Schedule matching: claims C4, C5, C9 -/

/-- The departures at or after instant `T` (the at-dock condition
`sailing.scheduled_departure >= T`, false only stated for an absent
instant, where the real comparison would raise instead). -/
def depAtOrAfter (T : Int) (s : DirectionalSailing) : Bool :=
  match s.scheduled_departure with
  | some x => decide (T ≤ x)
  | none => false

/-- The departures strictly after instant `T` (the underway / no-snapshot
condition `sailing.scheduled_departure > T`). -/
def depAfter (T : Int) (s : DirectionalSailing) : Bool :=
  match s.scheduled_departure with
  | some x => decide (T < x)
  | none => false

theorem exbind_ok {α β : Type} (a : α) (f : α → Except String β) :
    (Bind.bind (Except.ok a) f : Except String β) = f a := rfl

theorem exbind_error {α β : Type} (e : String) (f : α → Except String β) :
    (Bind.bind (Except.error e) f : Except String β) = .error e := rfl

theorem filterE_ok {α : Type} (p : α → Except String Bool) (q : α → Bool)
    (l : List α) (h : ∀ x ∈ l, p x = .ok (q x)) :
    filterE p l = .ok (l.filter q) := by
  induction l with
  | nil => rfl
  | cons x xs ih =>
      have hx := h x (List.mem_cons_self x xs)
      have ihh := ih (fun y hy => h y (List.mem_cons_of_mem x hy))
      cases hq : q x <;>
        simp [filterE, hx, ihh, List.filter_cons, hq, exbind_ok]

theorem filterE_error_head {α : Type} (p : α → Except String Bool)
    (x : α) (xs : List α) (e : String) (h : p x = .error e) :
    filterE p (x :: xs) = .error e := by
  simp [filterE, h, exbind_error]

theorem geOptE_none (a : Option Int) :
    geOptE a none =
      .error "TypeError: not supported between instances of NoneType and datetime" := by
  cases a <;> rfl

theorem gtOptE_none (a : Option Int) :
    gtOptE a none =
      .error "TypeError: not supported between instances of NoneType and datetime" := by
  cases a <;> rfl

/-- C4: for a vessel-slot whose live snapshot has scheduled-departure `T`,
the matcher keeps, when the vessel is at dock, exactly the slot's
departures with scheduled time at or after `T` (inclusive), and, when the
vessel is underway, exactly those strictly after `T`; in both cases the
order (ascending by scheduled departure, as the slot lists are produced)
is preserved. -/
theorem c4_live_vessel_filter (route_vessels : List Vessel) (now n : Int)
    (sailings : List DirectionalSailing) (cv : Vessel) (T : Int)
    (hcv : lookupVessel route_vessels n = some cv)
    (hT : cv.scheduled_departure = some T)
    (hsome : ∀ s ∈ sailings, s.scheduled_departure.isSome = true)
    (hsorted : List.Sorted dsLe sailings) :
    (cv.at_dock = true →
      next_sailings_for_position route_vessels now n sailings =
        .ok (sailings.filter (depAtOrAfter T))
      ∧ List.Sorted dsLe (sailings.filter (depAtOrAfter T)))
    ∧ (cv.at_dock = false →
      next_sailings_for_position route_vessels now n sailings =
        .ok (sailings.filter (depAfter T))
      ∧ List.Sorted dsLe (sailings.filter (depAfter T))) := by
  constructor
  · intro hdock
    refine ⟨?_, List.Pairwise.sublist (List.filter_sublist sailings) hsorted⟩
    unfold next_sailings_for_position
    rw [hcv]
    simp only [hdock, if_true]
    apply filterE_ok
    intro s hs
    rcases Option.isSome_iff_exists.mp (hsome s hs) with ⟨x, hx⟩
    simp [geOptE, hx, hT, depAtOrAfter]
  · intro hdock
    refine ⟨?_, List.Pairwise.sublist (List.filter_sublist sailings) hsorted⟩
    unfold next_sailings_for_position
    rw [hcv]
    simp only [hdock, Bool.false_eq_true, if_false]
    apply filterE_ok
    intro s hs
    rcases Option.isSome_iff_exists.mp (hsome s hs) with ⟨x, hx⟩
    simp [gtOptE, hx, hT, depAfter]

/-- Slot schedule used by the matcher witnesses: three departures. -/
def slotSailings : List DirectionalSailing :=
  [{ scheduled_departure := some 480, delay_in_minutes := none,
     vessel_name := "Wenatchee", vessel_position_num := 1,
     departing_terminal_id := 7, arriving_terminal_id := 3,
     departing_terminal_name := "Seattle", arriving_terminal_name := "Bainbridge Island" },
   { scheduled_departure := some 540, delay_in_minutes := none,
     vessel_name := "Wenatchee", vessel_position_num := 1,
     departing_terminal_id := 7, arriving_terminal_id := 3,
     departing_terminal_name := "Seattle", arriving_terminal_name := "Bainbridge Island" },
   { scheduled_departure := some 600, delay_in_minutes := none,
     vessel_name := "Wenatchee", vessel_position_num := 1,
     departing_terminal_id := 7, arriving_terminal_id := 3,
     departing_terminal_name := "Seattle", arriving_terminal_name := "Bainbridge Island" }]

/-- Witness for `c4_live_vessel_filter`: `atDockVessel` is at dock with
scheduled departure 540, so the 480 departure is dropped and the 540 and
600 departures are kept. -/
theorem c4_live_vessel_filter_witness :
    next_sailings_for_position [atDockVessel] 0 1 slotSailings =
      .ok (slotSailings.filter (depAtOrAfter 540)) ∧
    (slotSailings.filter (depAtOrAfter 540)).map
        (fun s => s.scheduled_departure) = [some 540, some 600] := by
  have h := (c4_live_vessel_filter [atDockVessel] 0 1 slotSailings atDockVessel
    540 (by decide) rfl (by decide) (by decide)).1 rfl
  exact ⟨h.1, by decide⟩

/-- C5: for a vessel-slot with scheduled departures but no live snapshot
for its position number, the matcher keeps exactly the slot's departures
strictly after the current instant. -/
theorem c5_no_live_vessel_filter (route_vessels : List Vessel) (now n : Int)
    (sailings : List DirectionalSailing)
    (hno : lookupVessel route_vessels n = none)
    (hsome : ∀ s ∈ sailings, s.scheduled_departure.isSome = true) :
    next_sailings_for_position route_vessels now n sailings =
      .ok (sailings.filter (depAfter now)) := by
  unfold next_sailings_for_position
  rw [hno]
  apply filterE_ok
  intro s hs
  rcases Option.isSome_iff_exists.mp (hsome s hs) with ⟨x, hx⟩
  simp [gtOptE, hx, depAfter]

/-- Witness for `c5_no_live_vessel_filter`: no vessel reports position 1,
the wall clock is 510, so exactly the 540 and 600 departures qualify. -/
theorem c5_no_live_vessel_filter_witness :
    next_sailings_for_position [] 510 1 slotSailings =
      .ok (slotSailings.filter (depAfter 510)) ∧
    (slotSailings.filter (depAfter 510)).map
        (fun s => s.scheduled_departure) = [some 540, some 600] := by
  have h := c5_no_live_vessel_filter [] 510 1 slotSailings rfl (by decide)
  exact ⟨h, by decide⟩

theorem next_sailings_error_of_null_departure (route_vessels : List Vessel)
    (now n : Int) (s : DirectionalSailing) (rest : List DirectionalSailing)
    (cv : Vessel) (hcv : lookupVessel route_vessels n = some cv)
    (hnull : cv.scheduled_departure = none) :
    next_sailings_for_position route_vessels now n (s :: rest) =
      .error "TypeError: not supported between instances of NoneType and datetime" := by
  cases hdock : cv.at_dock
  · simp only [next_sailings_for_position, hcv, hnull, hdock, Bool.false_eq_true,
      if_false]
    exact filterE_error_head _ _ _ _ (gtOptE_none _)
  · simp only [next_sailings_for_position, hcv, hnull, hdock, if_true]
    exact filterE_error_head _ _ _ _ (geOptE_none _)

/-- C9: the matcher is partial on null scheduled departures: when some slot
with a nonempty schedule has a live snapshot whose scheduled-departure is
absent (which the data model permits), `get_next_sailings_by_boat` raises
a `TypeError` on the comparison instead of producing any result. -/
theorem c9_null_scheduled_departure_raises
    (sched : List (Int × List DirectionalSailing))
    (route_vessels : List Vessel) (now n : Int) (s : DirectionalSailing)
    (rest : List DirectionalSailing) (cv : Vessel)
    (hmem : (n, s :: rest) ∈ sched)
    (hcv : lookupVessel route_vessels n = some cv)
    (hnull : cv.scheduled_departure = none) :
    (get_next_sailings_by_boat sched route_vessels now).isOk = false := by
  induction sched with
  | nil => cases hmem
  | cons e tl ih =>
      obtain ⟨m, ss⟩ := e
      rcases List.mem_cons.mp hmem with he | hmem'
      · injection he with he1 he2
        subst he1
        subst he2
        unfold get_next_sailings_by_boat
        rw [next_sailings_error_of_null_departure route_vessels now n s rest
          cv hcv hnull]
        rfl
      · unfold get_next_sailings_by_boat
        cases hp : next_sailings_for_position route_vessels now m ss with
        | error msg => rfl
        | ok ns =>
            have hrec := ih hmem'
            cases hres : get_next_sailings_by_boat tl route_vessels now with
            | error msg => rfl
            | ok out => rw [hres] at hrec; cases hrec

/-- Live snapshot whose scheduled departure is absent. -/
def nullDepartureVessel : Vessel :=
  { vessel_name := "Wenatchee"
    at_dock := true
    left_dock := none
    scheduled_departure := none
    delay := none
    route_name := ["sea-bi"]
    vessel_position_num := some 1 }

/-- Witness for `c9_null_scheduled_departure_raises` at a one-slot schedule
matched against `nullDepartureVessel`. -/
theorem c9_null_scheduled_departure_raises_witness :
    (get_next_sailings_by_boat [(1, slotSailings)] [nullDepartureVessel]
      0).isOk = false := by
  rcases hs : slotSailings with _ | ⟨s0, srest⟩
  · exact absurd hs (by decide)
  · rw [← hs]
    exact c9_null_scheduled_departure_raises [(1, slotSailings)]
      [nullDepartureVessel] 0 1 s0 srest nullDepartureVessel
      (by rw [← hs]; exact List.mem_singleton.mpr rfl) rfl rfl

/-! ### Directional aggregation: claims C6, C7 -/

theorem foldl_preserve {σ α : Type} (P : σ → Prop) (f : σ → α → σ)
    (hf : ∀ s a, P s → P (f s a)) :
    ∀ (l : List α) (s : σ), P s → P (l.foldl f s)
  | [], _, hs => hs
  | a :: tl, s, hs => foldl_preserve P f hf tl (f s a) (hf s a hs)

theorem appendGroup_nonempty {κ α : Type} [DecidableEq κ]
    (g : List (κ × List α)) (k : κ) (x : α) (h : ∀ e ∈ g, e.2 ≠ []) :
    ∀ e ∈ appendGroup g k x, e.2 ≠ [] := by
  induction g with
  | nil =>
      intro e he
      simp only [appendGroup, List.mem_singleton] at he
      subst he
      simp
  | cons hd tl ih =>
      obtain ⟨k', xs⟩ := hd
      intro e he
      by_cases hk : k' = k
      · simp only [appendGroup, hk, if_true] at he
        rcases List.mem_cons.mp he with rfl | he'
        · simp
        · exact h e (List.mem_cons_of_mem _ he')
      · simp only [appendGroup, hk, if_false] at he
        rcases List.mem_cons.mp he with rfl | he'
        · exact h _ (List.mem_cons_self _ _)
        · exact ih (fun e' he'' => h e' (List.mem_cons_of_mem _ he'')) e he'

theorem directionGroups_nonempty
    (nsbb : List (Int × List DirectionalSailing)) :
    ∀ e ∈ directionGroups nsbb, e.2 ≠ [] := by
  unfold directionGroups
  exact foldl_preserve (fun g => ∀ e ∈ g, e.2 ≠ []) _
    (fun g entry hg =>
      foldl_preserve (fun g => ∀ e ∈ g, e.2 ≠ []) _
        (fun g' s hg' => appendGroup_nonempty g' (dirKey s) s hg')
        entry.2 g hg)
    nsbb [] (fun e he => absurd he (List.not_mem_nil e))

theorem mapE_ok_mem {α β : Type} (f : α → Except String β) (l : List α)
    (out : List β) (h : mapE f l = .ok out) :
    ∀ b ∈ out, ∃ a ∈ l, f a = .ok b := by
  induction l generalizing out with
  | nil =>
      unfold mapE at h
      injection h with h
      subst h
      intro b hb
      cases hb
  | cons x xs ih =>
      unfold mapE at h
      cases hx : f x with
      | error e => rw [hx, exbind_error] at h; cases h
      | ok y =>
          rw [hx, exbind_ok] at h
          cases hrest : mapE f xs with
          | error e => rw [hrest, exbind_error] at h; cases h
          | ok ys =>
              rw [hrest, exbind_ok] at h
              injection h with h
              subst h
              intro b hb
              rcases List.mem_cons.mp hb with rfl | hb'
              · exact ⟨x, List.mem_cons_self _ _, hx⟩
              · rcases ih ys hrest b hb' with ⟨a, ha, hfa⟩
                exact ⟨a, List.mem_cons_of_mem _ ha, hfa⟩

theorem sortTimesE_ok_length (l l' : List RouteSailing)
    (h : sortTimesE l = .ok l') : l'.length = l.length := by
  unfold sortTimesE at h
  by_cases h1 : l.length ≤ 1
  · rw [if_pos h1] at h
    injection h with h
    rw [← h]
  · rw [if_neg h1] at h
    by_cases h2 : l.all (fun s => s.scheduled_departure.isSome) = true
    · rw [if_pos h2] at h
      injection h with h
      rw [← h]
      exact List.length_insertionSort rsLe l
    · rw [if_neg h2] at h
      cases h

theorem sortTimesE_ok_pairwise (l l' : List RouteSailing)
    (h : sortTimesE l = .ok l') : l'.Pairwise rsLe := by
  unfold sortTimesE at h
  by_cases h1 : l.length ≤ 1
  · rw [if_pos h1] at h
    injection h with h
    subst h
    match l, h1 with
    | [], _ => exact List.Pairwise.nil
    | [a], _ => simp
  · rw [if_neg h1] at h
    by_cases h2 : l.all (fun s => s.scheduled_departure.isSome) = true
    · rw [if_pos h2] at h
      injection h with h
      subst h
      exact List.sorted_insertionSort rsLe l
    · rw [if_neg h2] at h
      cases h

/-- C6: every directional-schedule record emitted by the aggregator holds
at least one sailing — a direction only gets a group by having a sailing
appended to it, and sorting preserves the length. -/
theorem c6_no_empty_direction
    (nsbb : List (Int × List DirectionalSailing))
    (out : List DirectionalSchedule)
    (h : get_directional_schedules nsbb = .ok out) :
    ∀ ds ∈ out, ds.times ≠ [] := by
  intro ds hds
  rcases mapE_ok_mem _ _ _ h ds hds with ⟨e, he, hfe⟩
  cases hs : sortTimesE (e.2.map DirectionalSailing.to_route_sailing) with
  | error msg => rw [hs, exbind_error] at hfe; cases hfe
  | ok srt =>
      rw [hs, exbind_ok] at hfe
      injection hfe with hfe
      have htimes : ds.times = srt := by rw [← hfe]
      have hlen := sortTimesE_ok_length _ _ hs
      have hne := directionGroups_nonempty nsbb e he
      intro hnil
      rw [htimes] at hnil
      rw [hnil] at hlen
      simp at hlen
      exact hne (List.eq_nil_of_length_eq_zero hlen.symm)

/-- Sailing fixture: 08:00 Seattle → Bainbridge on slot 1. -/
def dupA : DirectionalSailing :=
  { scheduled_departure := some 480, delay_in_minutes := none,
    vessel_name := "Wenatchee", vessel_position_num := 1,
    departing_terminal_id := 7, arriving_terminal_id := 3,
    departing_terminal_name := "Seattle",
    arriving_terminal_name := "Bainbridge Island" }

/-- Sailing fixture: a second 08:00 Seattle → Bainbridge sailing, on
slot 2 — same direction and same scheduled instant as `dupA`. -/
def dupB : DirectionalSailing :=
  { scheduled_departure := some 480, delay_in_minutes := none,
    vessel_name := "Tacoma", vessel_position_num := 2,
    departing_terminal_id := 7, arriving_terminal_id := 3,
    departing_terminal_name := "Seattle",
    arriving_terminal_name := "Bainbridge Island" }

/-- Aggregator input with two slots whose sailings share direction and
scheduled instant. -/
def dupInput : List (Int × List DirectionalSailing) := [(1, [dupA]), (2, [dupB])]

/-- The single direction record the aggregator emits for `dupInput`. -/
def dupRec : DirectionalSchedule :=
  { departing_terminal_id := 7, departing_terminal_name := "Seattle",
    arriving_terminal_id := 3, arriving_terminal_name := "Bainbridge Island",
    times := [{ scheduled_departure := some 480, delay_in_minutes := none,
                vessel_name := "Wenatchee", vessel_position_num := 1 },
              { scheduled_departure := some 480, delay_in_minutes := none,
                vessel_name := "Tacoma", vessel_position_num := 2 }] }

/-- Witness for `c6_no_empty_direction` at the concrete input
`dupInput`. -/
theorem c6_no_empty_direction_witness :
    get_directional_schedules dupInput = .ok [dupRec] ∧ dupRec.times ≠ [] :=
  ⟨by decide,
   c6_no_empty_direction dupInput [dupRec] (by decide) dupRec
     (List.mem_singleton.mpr rfl)⟩

/-- Strict ascending order of a result list by scheduled departure, as
claimed: no two entries share a scheduled departure and each entry's
instant is strictly before the next's. -/
def routeTimesStrict (l : List RouteSailing) : Prop :=
  l.Pairwise (fun a b => a.scheduled_departure ≠ b.scheduled_departure ∧
    ∀ x y, a.scheduled_departure = some x → b.scheduled_departure = some y →
      x < y)

/-- Non-strict ascending order of a result list by scheduled departure:
each entry's instant is at or before the next's. -/
def routeTimesAscending (l : List RouteSailing) : Prop :=
  l.Pairwise (fun a b =>
    ∀ x y, a.scheduled_departure = some x → b.scheduled_departure = some y →
      x ≤ y)

/-- C7 counterexample: with two qualifying sailings in the same direction
at the same scheduled instant (possible across vessel slots), the
aggregator emits both — `sorted` is non-strict and nothing deduplicates —
so the emitted list is not strictly ordered. -/
theorem c7_strict_order_cex :
    get_directional_schedules dupInput = .ok [dupRec]
    ∧ ¬ routeTimesStrict dupRec.times := by
  refine ⟨by decide, ?_⟩
  intro hstrict
  unfold routeTimesStrict at hstrict
  have h1 := (List.pairwise_cons.mp hstrict).1
  exact (h1 _ (List.mem_singleton.mpr rfl)).1 rfl

/-- C7 (amended): within every directional-schedule record produced by the
aggregator, the sailing list is ordered by scheduled departure instant
ascending, non-strictly: each entry's instant is at or before the next's,
and entries with equal scheduled departures may both appear. -/
theorem c7_times_nondecreasing
    (nsbb : List (Int × List DirectionalSailing))
    (out : List DirectionalSchedule)
    (h : get_directional_schedules nsbb = .ok out) :
    ∀ ds ∈ out, routeTimesAscending ds.times := by
  intro ds hds
  rcases mapE_ok_mem _ _ _ h ds hds with ⟨e, he, hfe⟩
  cases hs : sortTimesE (e.2.map DirectionalSailing.to_route_sailing) with
  | error msg => rw [hs, exbind_error] at hfe; cases hfe
  | ok srt =>
      rw [hs, exbind_ok] at hfe
      injection hfe with hfe
      have htimes : ds.times = srt := by rw [← hfe]
      rw [routeTimesAscending, htimes]
      refine (sortTimesE_ok_pairwise _ _ hs).imp ?_
      intro a b hab x y hx hy
      unfold rsLe RouteSailing.sortKey at hab
      rw [hx, hy] at hab
      simpa using hab

/-- Witness for `c7_times_nondecreasing` at the concrete input
`dupInput`. -/
theorem c7_times_nondecreasing_witness :
    get_directional_schedules dupInput = .ok [dupRec]
    ∧ routeTimesAscending dupRec.times :=
  ⟨by decide,
   c7_times_nondecreasing dupInput [dupRec] (by decide) dupRec
     (List.mem_singleton.mpr rfl)⟩

/-! ### Time normalization: claim C8 -/

theorem dropStart_append (p r : List Char) : dropStart p (p ++ r) = some r := by
  induction p with
  | nil => rfl
  | cons c cs ih => simp [dropStart, ih]

theorem spanDigits_append (ds : List Char) (c : Char) (r : List Char)
    (hds : ∀ d ∈ ds, d.isDigit = true) (hc : c.isDigit = false) :
    spanDigits (ds ++ c :: r) = (ds, c :: r) := by
  induction ds with
  | nil => simp [spanDigits, hc]
  | cons d dtl ih =>
      have hd := hds d (List.mem_cons_self d dtl)
      simp [spanDigits, hd,
        ih (fun c' hc' => hds c' (List.mem_cons_of_mem d hc'))]

theorem msDateMatch_digits (ds : List Char) (hne : ds ≠ [])
    (hds : ∀ c ∈ ds, c.isDigit = true) :
    msDateMatch (String.mk ("/Date(".data ++ ds ++ ")/".data)) =
      some (digitsVal ds) := by
  have hclose : ")/".data = ')' :: '/' :: [] := rfl
  have h2 : spanDigits (ds ++ ')' :: '/' :: []) = (ds, ')' :: '/' :: []) :=
    spanDigits_append ds ')' ['/'] hds rfl
  have hmk : (String.mk ("/Date(".data ++ ds ++ ")/".data)).data =
      "/Date(".data ++ ds ++ ")/".data := rfl
  unfold msDateMatch
  rw [hmk, hclose, List.append_assoc, dropStart_append]
  simp [h2, hne, suffixOk]

theorem msDateMatch_digits_offset (ds : List Char) (sign : Char)
    (d1 d2 d3 d4 : Char) (hne : ds ≠ [])
    (hds : ∀ c ∈ ds, c.isDigit = true)
    (hsign : sign = '+' ∨ sign = '-')
    (h1 : d1.isDigit = true) (h2 : d2.isDigit = true)
    (h3 : d3.isDigit = true) (h4 : d4.isDigit = true) :
    msDateMatch (String.mk ("/Date(".data ++ ds ++
        (sign :: d1 :: d2 :: d3 :: d4 :: ')' :: '/' :: []))) =
      some (digitsVal ds) := by
  have hsd : sign.isDigit = false := by
    rcases hsign with rfl | rfl <;> rfl
  have hspan : spanDigits (ds ++ sign :: d1 :: d2 :: d3 :: d4 :: ')' :: '/' :: []) =
      (ds, sign :: d1 :: d2 :: d3 :: d4 :: ')' :: '/' :: []) :=
    spanDigits_append ds sign _ hds hsd
  have hmk : (String.mk ("/Date(".data ++ ds ++
      (sign :: d1 :: d2 :: d3 :: d4 :: ')' :: '/' :: []))).data =
      "/Date(".data ++ ds ++ (sign :: d1 :: d2 :: d3 :: d4 :: ')' :: '/' :: []) := rfl
  unfold msDateMatch
  rw [hmk, List.append_assoc, dropStart_append]
  rcases hsign with rfl | rfl <;> simp [hspan, hne, suffixOk, h1, h2, h3, h4]

theorem parse_ms_date_vstr (s : String) :
    parse_ms_date (.vstr s) =
      match msDateMatch s with
      | some millis => .ok (.vdat (millis : Int))
      | none => .ok (.vstr s) := rfl

/-- C8 counterexample: the claim includes already-structured values among
the inputs that pass through unchanged, but the code hands every non-null
value to `re.match`, which raises `TypeError` for a non-string argument
such as a datetime. -/
theorem c8_structured_value_cex :
    parse_ms_date (.vdat 0) =
      .error "TypeError: expected string or bytes-like object" := rfl

/-- C8 (amended): the time-normalization function never raises on null or
on any string: null passes through, a string that does not match the epoch
pattern (however malformed) is returned unchanged, and a string of the
form `/Date(<millis>)/` or `/Date(<millis><sign><4 digits>)/` yields the
absolute instant given by the millisecond count (the textual offset is
ignored; conversion to the fixed reference zone preserves the instant).
Already-structured (non-string, non-null) values are not passed through:
they raise a `TypeError`. -/
theorem c8_lenient_on_strings :
    parse_ms_date .vnull = .ok .vnull
    ∧ (∀ s : String, (parse_ms_date (.vstr s)).isOk = true)
    ∧ (∀ s : String, msDateMatch s = none →
        parse_ms_date (.vstr s) = .ok (.vstr s))
    ∧ (∀ ds : List Char, ds ≠ [] → (∀ c ∈ ds, c.isDigit = true) →
        parse_ms_date (.vstr (String.mk ("/Date(".data ++ ds ++ ")/".data))) =
          .ok (.vdat (digitsVal ds)))
    ∧ (∀ ds : List Char, ∀ sign d1 d2 d3 d4 : Char, ds ≠ [] →
        (∀ c ∈ ds, c.isDigit = true) → (sign = '+' ∨ sign = '-') →
        d1.isDigit = true → d2.isDigit = true → d3.isDigit = true →
        d4.isDigit = true →
        parse_ms_date (.vstr (String.mk ("/Date(".data ++ ds ++
            (sign :: d1 :: d2 :: d3 :: d4 :: ')' :: '/' :: [])))) =
          .ok (.vdat (digitsVal ds))) := by
  refine ⟨rfl, ?_, ?_, ?_, ?_⟩
  · intro s
    rw [parse_ms_date_vstr]
    cases msDateMatch s <;> rfl
  · intro s hs
    rw [parse_ms_date_vstr, hs]
  · intro ds hne hds
    rw [parse_ms_date_vstr, msDateMatch_digits ds hne hds]
  · intro ds sign d1 d2 d3 d4 hne hds hsign h1 h2 h3 h4
    rw [parse_ms_date_vstr,
      msDateMatch_digits_offset ds sign d1 d2 d3 d4 hne hds hsign h1 h2 h3 h4]

/-- Witness for `c8_lenient_on_strings`: a malformed string passes through
unchanged, `/Date(123)/` yields instant 123, and
`/Date(1234567890123-0700)/` yields instant 1234567890123. -/
theorem c8_lenient_on_strings_witness :
    parse_ms_date (.vstr "/Date(oops") = .ok (.vstr "/Date(oops")
    ∧ parse_ms_date (.vstr (String.mk ("/Date(".data ++ ['1', '2', '3'] ++
        ")/".data))) = .ok (.vdat 123)
    ∧ parse_ms_date (.vstr (String.mk ("/Date(".data ++
        ['1', '2', '3', '4', '5', '6', '7', '8', '9', '0', '1', '2', '3'] ++
        ('-' :: '0' :: '7' :: '0' :: '0' :: ')' :: '/' :: [])))) =
      .ok (.vdat 1234567890123) := by
  refine ⟨c8_lenient_on_strings.2.2.1 "/Date(oops" (by decide), ?_, ?_⟩
  · have h := c8_lenient_on_strings.2.2.2.1 ['1', '2', '3'] (by decide) (by decide)
    rw [h]
    rfl
  · have h := c8_lenient_on_strings.2.2.2.2
      ['1', '2', '3', '4', '5', '6', '7', '8', '9', '0', '1', '2', '3']
      '-' '0' '7' '0' '0' (by decide) (by decide) (Or.inr rfl) rfl rfl rfl rfl
    rw [h]
    rfl

/-! ### End-to-end reference scenario: claim C1 -/

/-- The schedule of the reference scenario: one direction with departures
08:00 (480), 09:00 (540) and 10:00 (600) for vessel slot 1. -/
def scenarioSchedule : List RawDirectionalSchedule :=
  [{ departing_terminal_id := 7, departing_terminal_name := "Seattle",
     arriving_terminal_id := 3, arriving_terminal_name := "Bainbridge Island",
     times := [{ scheduled_departure := some 480, vessel_name := "Wenatchee",
                 vessel_position_num := 1 },
               { scheduled_departure := some 540, vessel_name := "Wenatchee",
                 vessel_position_num := 1 },
               { scheduled_departure := some 600, vessel_name := "Wenatchee",
                 vessel_position_num := 1 }] }]

/-- The reference scenario run: resolve delays for the live snapshot
(`atDockVessel`: at dock, scheduled departure 09:00, no left-dock instant)
against the cache holding +5 minutes for this slot and route, then build
the route's directional schedules. -/
def scenarioRun : Except String (List DirectionalSchedule) := do
  let (vs, _) ← get_vessels_with_delays staleCache [atDockVessel]
  get_next_sailings_for_route scenarioSchedule vs "sea-bi" 0

/-- C1, evaluated at the spec's own reference scenario: the resolver does
resolve the vessel's delay to +5 minutes from the cache, and the output
for the direction is exactly the 09:00 and 10:00 sailings with 08:00
excluded — but the emitted sailings carry no delay annotation at all
(`delay_in_minutes` is `None` on both): the resolved delay is never copied
from the vessels into the emitted sailings anywhere in the pipeline. -/
theorem c1_delay_not_attached :
    (get_vessels_with_delays staleCache [atDockVessel]).map
        (fun p => p.1.map Vessel.delay) = .ok [some 5]
    ∧ scenarioRun = .ok
        [{ departing_terminal_id := 7, departing_terminal_name := "Seattle",
           arriving_terminal_id := 3,
           arriving_terminal_name := "Bainbridge Island",
           times := [{ scheduled_departure := some 540,
                       delay_in_minutes := none, vessel_name := "Wenatchee",
                       vessel_position_num := 1 },
                     { scheduled_departure := some 600,
                       delay_in_minutes := none, vessel_name := "Wenatchee",
                       vessel_position_num := 1 }] }] :=
  ⟨by decide, by decide⟩

end NextFerry
